import Mathlib

/-!
# Verification of the pyODM per-site signal pipeline and multi-site aggregation

Shallow embedding of `pyodm/sitedata.py` and `pyodm/modelling.py`.

Modelling conventions:
* calendar dates and timestamps are day numbers (`ℤ`); `datetime.timedelta(days=1)`
  is `+ 1`, and `delta_days d2 d1 = d2 - d1`;
* pandas float columns are `ℚ` where no NaN can occur, `Option ℚ` where the source
  inserts Python `None`, and the IEEE-flavoured type `Fl` where NaN propagation and
  division by zero matter (the aggregation step);
* a raised Python exception is `Except.error`.
-/

namespace PyODM

/-- `delta_days` from `sitedata.py`: number of days between two dates. -/
def delta_days (date_2 date_1 : ℤ) : ℤ := date_2 - date_1

/-! ## `AggregateModel.get_date_list` (`modelling.py`)

```python
dates = [start_date]
while dates[-1] <= end_date:
    dates.append(dates[-1] + datetime.timedelta(days=1))
return dates
```

The loop appends the successor of the current last element while that last element
is still `<= end_date`.  `dateLoop e fuel last` is the list of elements the loop
appends after (and not including) `last`. -/

/-- The appends performed by the `while` loop of `get_date_list`, given the current
last element `last`.  `fuel` is an iteration bound chosen large enough that the
loop condition `last ≤ e`, checked here exactly as in the source, is what stops
the recursion. -/
def dateLoop (e : ℤ) : ℕ → ℤ → List ℤ
  | 0, _ => []
  | fuel + 1, last => if last ≤ e then (last + 1) :: dateLoop e fuel (last + 1) else []

/-- `AggregateModel.get_date_list`: daily date list from `start_date`, driven by the
`while dates[-1] <= end_date` loop.  The fuel `(e + 1 - s).toNat` is exactly the
number of iterations the Python loop performs, so the guard inside `dateLoop`
never fails before the fuel runs out and the embedding matches the loop. -/
def get_date_list (start_date end_date : ℤ) : List ℤ :=
  start_date :: dateLoop end_date (end_date + 1 - start_date).toNat start_date

/-- Closed form: the loop run from `last = e + 1 - fuel` appends `last+1, …, e+1`. -/
theorem dateLoop_closed (e : ℤ) :
    ∀ (fuel : ℕ) (last : ℤ), last + fuel = e + 1 →
      dateLoop e fuel last = (List.range fuel).map (fun k : ℕ => last + 1 + (k : ℤ)) := by
  intro fuel
  induction fuel with
  | zero => intro last _; rfl
  | succ m ih =>
    intro last h
    rw [dateLoop, if_pos (by omega), ih (last + 1) (by omega),
      List.range_succ_eq_map, List.map_cons, List.map_map]
    refine congrArg₂ _ (by push_cast; ring) (List.map_congr_left ?_)
    intro k _
    simp only [Function.comp_apply]
    push_cast
    ring

/-- Length of the produced list when `start_date ≤ end_date`:
`(end - start) + 2`, not `(end - start) + 1`. -/
theorem get_date_list_length (s e : ℤ) (h : s ≤ e) :
    (get_date_list s e).length = (e - s).toNat + 2 := by
  rw [get_date_list, dateLoop_closed e ((e + 1 - s).toNat) s (by omega)]
  simp only [List.length_cons, List.length_map, List.length_range]
  omega

/-- Membership in the produced list when `start_date ≤ end_date`:
exactly the dates `s, …, e + 1`. -/
theorem get_date_list_mem (s e : ℤ) (h : s ≤ e) :
    ∀ d : ℤ, d ∈ get_date_list s e ↔ s ≤ d ∧ d ≤ e + 1 := by
  intro d
  rw [get_date_list, dateLoop_closed e ((e + 1 - s).toNat) s (by omega)]
  simp only [List.mem_cons, List.mem_map, List.mem_range]
  constructor
  · rintro (rfl | ⟨k, hk, rfl⟩) <;> omega
  · intro hd
    rcases eq_or_lt_of_le hd.1 with rfl | hlt
    · exact Or.inl rfl
    · exact Or.inr ⟨(d - s - 1).toNat, by omega, by omega⟩

/-- C1, evaluated at the failing input (a 30-day inclusive window, day numbers
`0 … 29`): the grid has 31 entries and its last entry is day 30 — one day past
the requested end date — so the claimed length `(e - s).days + 1 = 30` is wrong. -/
theorem C1_date_grid_off_by_one :
    (get_date_list 0 29).length = 31 ∧
    (get_date_list 0 29).getLast? = some 30 ∧ (30 : ℤ) ∈ get_date_list 0 29 := by
  refine ⟨?_, ?_, ?_⟩ <;> decide

/-! ## A small IEEE-flavoured float model

The aggregation step of `modelling.py` relies on pandas/NumPy float semantics:
NaN propagates through arithmetic, `DataFrame.sum` skips NaN (an all-NaN row sums
to `0.0`), and `0.0 / 0.0` is NaN.  `Fl` models a float as NaN, ±∞, or an exact
rational; the operations below follow IEEE-754 on these representatives. -/

/-- A pandas float cell: NaN, ±infinity, or a finite (rational) value. -/
inductive Fl where
  | nan : Fl
  | inf : Fl
  | ninf : Fl
  | fin : ℚ → Fl
deriving DecidableEq

/-- `pandas.isna` on a float cell. -/
def Fl.isna : Fl → Bool
  | nan => true
  | _ => false

/-- IEEE multiplication on `Fl`. -/
def Fl.mul : Fl → Fl → Fl
  | nan, _ => nan
  | _, nan => nan
  | fin a, fin b => fin (a * b)
  | inf, fin b => if b = 0 then nan else if 0 < b then inf else ninf
  | fin a, inf => if a = 0 then nan else if 0 < a then inf else ninf
  | ninf, fin b => if b = 0 then nan else if 0 < b then ninf else inf
  | fin a, ninf => if a = 0 then nan else if 0 < a then ninf else inf
  | inf, inf => inf
  | inf, ninf => ninf
  | ninf, inf => ninf
  | ninf, ninf => inf

/-- IEEE addition on `Fl`. -/
def Fl.add : Fl → Fl → Fl
  | nan, _ => nan
  | _, nan => nan
  | fin a, fin b => fin (a + b)
  | inf, ninf => nan
  | ninf, inf => nan
  | inf, _ => inf
  | _, inf => inf
  | ninf, _ => ninf
  | _, ninf => ninf

/-- IEEE division on `Fl` (`0/0 = NaN`, `x/0 = ±∞` for finite `x ≠ 0`). -/
def Fl.div : Fl → Fl → Fl
  | nan, _ => nan
  | _, nan => nan
  | fin a, fin b =>
      if b = 0 then (if a = 0 then nan else if 0 < a then inf else ninf)
      else fin (a / b)
  | inf, fin b => if 0 ≤ b then inf else ninf
  | ninf, fin b => if 0 ≤ b then ninf else inf
  | fin _, inf => fin 0
  | fin _, ninf => fin 0
  | inf, _ => nan
  | ninf, _ => nan

/-- `pandas.DataFrame.sum` over a row with the default `skipna=True`: NaN entries
are dropped, the remaining entries are summed starting from `0.0`. -/
def flSum (l : List Fl) : Fl :=
  (l.filter (fun x => !x.isna)).foldl Fl.add (Fl.fin 0)

/-- A Python `None` spline value becomes NaN when stored into the float DataFrame. -/
def optFl : Option ℚ → Fl
  | none => Fl.nan
  | some q => Fl.fin q

/-! ## `AggregateModel.get_site_spline` / `get_aggregate_model` (`modelling.py`)

The fitted spline model returned by `SiteData.get_spline_model` is an opaque
callable date → float; it enters this embedding as a function `ℤ → ℚ`
(the `spline` field below).  `min_date` / `max_date` are
`sample_data["sampleDate"].min()` / `.max()` for the site, and `weight` is
`self._weights[site]`. -/

/-- One sampling site as seen by `AggregateModel`. -/
structure Site where
  spline : ℤ → ℚ
  min_date : ℤ
  max_date : ℤ
  weight : ℚ

/-- The value `get_site_spline` produces for one grid date: the spline value,
overwritten by `None` by the two masking `if`s (`date < min_date`,
`date > max_date`), in source order. -/
def site_spline_value (model : ℤ → ℚ) (min_date max_date : ℤ) (d : ℤ) : Option ℚ :=
  let v : Option ℚ := some (model d)
  let v := if d < min_date then none else v
  if max_date < d then none else v

/-- `AggregateModel.get_site_spline`: evaluate the site's spline model on the whole
date grid, then mask grid dates outside `[min_date, max_date]` with `None`. -/
def get_site_spline (model : ℤ → ℚ) (min_date max_date : ℤ) (s e : ℤ) :
    List (ℤ × Option ℚ) :=
  (get_date_list s e).map (fun d => (d, site_spline_value model min_date max_date d))

/-- The per-date combination step of `get_aggregate_model`, acting on one grid row.
`cols` holds, per site, the `value_X` cell and the site's weight.  As in the
source: each value column is multiplied by its weight, the weight column is the
weight except where the scaled value is NaN (there it is `0.0`), and the row value
is `sum(value columns) / sum(weight columns)` with pandas `skipna` sums. -/
def aggregate_row (cols : List (Fl × ℚ)) : Fl :=
  let scaled := cols.map (fun c => Fl.mul c.1 (Fl.fin c.2))
  let wcol := cols.map (fun c => if (Fl.mul c.1 (Fl.fin c.2)).isna then (0 : ℚ) else c.2)
  Fl.div (flSum scaled) (Fl.fin wcol.sum)

/-- `AggregateModel.get_aggregate_model`: `get_multisite_splines` evaluates every
site on the same grid `get_date_list s e` (whose dates are distinct), so its
left-join on `sampleDate` aligns the rows positionally; each grid row is then
combined by `aggregate_row`. -/
def get_aggregate_model (sites : List Site) (s e : ℤ) : List (ℤ × Fl) :=
  (get_date_list s e).map (fun d =>
    (d, aggregate_row (sites.map (fun st =>
      (optFl (site_spline_value st.spline st.min_date st.max_date d), st.weight)))))

/-- The sites whose masked spline value at date `d` is present (not `None`). -/
def presentSites (sites : List Site) (d : ℤ) : List Site :=
  sites.filter (fun st => (site_spline_value st.spline st.min_date st.max_date d).isSome)

/-- The (present) masked spline value of a site at date `d`. -/
def siteVal (st : Site) (d : ℤ) : ℚ :=
  (site_spline_value st.spline st.min_date st.max_date d).getD 0

theorem foldl_add_scaled (cols : List (Option ℚ × ℚ)) :
    ∀ acc : ℚ,
      (((cols.map fun c => Fl.mul (optFl c.1) (Fl.fin c.2)).filter
          (fun x => !x.isna)).foldl Fl.add (Fl.fin acc))
        = Fl.fin (acc + ((cols.filter (fun c => c.1.isSome)).map
            (fun c => c.1.getD 0 * c.2)).sum) := by
  induction cols with
  | nil => intro acc; simp [flSum]
  | cons c t ih =>
    intro acc
    obtain ⟨ov, w⟩ := c
    cases ov with
    | none =>
      simpa [optFl, Fl.mul, Fl.isna] using ih acc
    | some q =>
      have h := ih (acc + q * w)
      simp only [optFl, Fl.mul, Fl.isna, List.map_cons, List.filter_cons,
        Bool.not_false, if_pos, List.foldl_cons, Fl.add, Option.isSome_some,
        List.sum_cons, Option.getD_some] at h ⊢
      rw [h]
      exact congrArg Fl.fin (by ring)

theorem wcol_sum (cols : List (Option ℚ × ℚ)) :
    (cols.map fun c => if (Fl.mul (optFl c.1) (Fl.fin c.2)).isna then (0 : ℚ) else c.2).sum
      = ((cols.filter (fun c => c.1.isSome)).map (fun c => c.2)).sum := by
  induction cols with
  | nil => simp
  | cons c t ih =>
    obtain ⟨ov, w⟩ := c
    cases ov with
    | none => simpa [optFl, Fl.mul, Fl.isna] using ih
    | some q => simpa [optFl, Fl.mul, Fl.isna] using ih

/-- Characterization of `aggregate_row` on columns built from masked (option)
values with positive weights: the weighted mean of the present values, or NaN
when every value is missing. -/
theorem aggregate_row_spec (cols : List (Option ℚ × ℚ))
    (hw : ∀ c ∈ cols, 0 < c.2) :
    aggregate_row (cols.map (fun c => (optFl c.1, c.2)))
      = if cols.filter (fun c => c.1.isSome) = [] then Fl.nan
        else Fl.fin (((cols.filter (fun c => c.1.isSome)).map
            (fun c => c.1.getD 0 * c.2)).sum
          / ((cols.filter (fun c => c.1.isSome)).map (fun c => c.2)).sum) := by
  have hnum := foldl_add_scaled cols 0
  have hden := wcol_sum cols
  rw [aggregate_row]
  simp only [List.map_map]
  show Fl.div (flSum _) (Fl.fin _) = _
  rw [flSum]
  have e1 : (cols.map ((fun c => Fl.mul c.1 (Fl.fin c.2)) ∘ fun c => (optFl c.1, c.2)))
      = cols.map fun c => Fl.mul (optFl c.1) (Fl.fin c.2) := by
    simp [Function.comp]
  have e2 : (cols.map ((fun c => if (Fl.mul c.1 (Fl.fin c.2)).isna then (0:ℚ) else c.2)
        ∘ fun c => (optFl c.1, c.2)))
      = cols.map fun c => if (Fl.mul (optFl c.1) (Fl.fin c.2)).isna then (0:ℚ) else c.2 := by
    simp [Function.comp]
  rw [e1, e2, hnum, hden]
  by_cases hp : cols.filter (fun c => c.1.isSome) = []
  · rw [if_pos hp, hp]
    simp [Fl.div]
  · rw [if_neg hp]
    have hpos : 0 < ((cols.filter (fun c => c.1.isSome)).map (fun c => c.2)).sum := by
      apply List.sum_pos
      · intro x hx
        obtain ⟨c, hc, rfl⟩ := List.mem_map.mp hx
        exact hw c (List.mem_of_mem_filter hc)
      · simpa using hp
    rw [Fl.div, if_neg (by positivity)]
    exact congrArg Fl.fin (by ring)

/-- C2: at every grid date of `get_aggregate_model`, the output value is the
weighted mean over the sites with a present (non-missing) value at that date —
`Σ (value·weight) / Σ weight` over present sites — and NaN when every site is
missing at that date. -/
theorem C2_aggregate_weighted_mean (sites : List Site) (s e d : ℤ) (v : Fl)
    (hw : ∀ st ∈ sites, 0 < st.weight)
    (hmem : (d, v) ∈ get_aggregate_model sites s e) :
    (presentSites sites d ≠ [] →
      v = Fl.fin (((presentSites sites d).map (fun st => siteVal st d * st.weight)).sum
        / ((presentSites sites d).map (fun st => st.weight)).sum)) ∧
    (presentSites sites d = [] → v = Fl.nan) := by
  rw [get_aggregate_model] at hmem
  obtain ⟨d', hd', heq⟩ := List.mem_map.mp hmem
  have hd : d' = d := congrArg Prod.fst heq
  subst hd
  have hv : v = aggregate_row (sites.map (fun st =>
      (optFl (site_spline_value st.spline st.min_date st.max_date d'), st.weight))) :=
    (congrArg Prod.snd heq).symm
  subst hv
  have hcols : (sites.map (fun st =>
      (optFl (site_spline_value st.spline st.min_date st.max_date d'), st.weight)))
      = ((sites.map (fun st =>
          (site_spline_value st.spline st.min_date st.max_date d', st.weight))).map
        (fun c => (optFl c.1, c.2))) := by
    simp [List.map_map, Function.comp]
  rw [hcols, aggregate_row_spec _ (by
    intro c hc
    obtain ⟨st, hst, rfl⟩ := List.mem_map.mp hc
    exact hw st hst)]
  have hfilter : ((sites.map (fun st =>
      (site_spline_value st.spline st.min_date st.max_date d', st.weight))).filter
        (fun c => c.1.isSome))
      = (presentSites sites d').map (fun st =>
          (site_spline_value st.spline st.min_date st.max_date d', st.weight)) := by
    rw [presentSites, List.filter_map]
    rfl
  rw [hfilter]
  constructor
  · intro hne
    rw [if_neg (by simpa using hne)]
    congr 1
    simp [List.map_map, Function.comp_def, siteVal]
  · intro hnil
    rw [if_pos (by simp [hnil])]

/-- Witness sites for the aggregation theorems: site X reports 4 with weight 2,
site Y reports 1 with weight 1, both observed on days 0–10. -/
def siteX : Site := ⟨fun _ => 4, 0, 10, 2⟩

/-- Second witness site. -/
def siteY : Site := ⟨fun _ => 1, 0, 10, 1⟩

theorem C2_aggregate_weighted_mean_witness :
    (presentSites [siteX, siteY] 0 ≠ [] →
      Fl.fin 3 = Fl.fin (((presentSites [siteX, siteY] 0).map
          (fun st => siteVal st 0 * st.weight)).sum
        / ((presentSites [siteX, siteY] 0).map (fun st => st.weight)).sum)) ∧
    (presentSites [siteX, siteY] 0 = [] → Fl.fin 3 = Fl.nan) := by
  apply C2_aggregate_weighted_mean [siteX, siteY] 0 1 0 (Fl.fin 3)
  · intro st hst
    rcases List.mem_cons.mp hst with rfl | hst'
    · norm_num [siteX]
    · rcases List.mem_cons.mp hst' with rfl | h
      · norm_num [siteY]
      · exact absurd h (List.not_mem_nil st)
  · show (0, Fl.fin 3) ∈ get_aggregate_model [siteX, siteY] 0 1
    rw [get_aggregate_model]
    refine List.mem_map.mpr ⟨0, ?_, ?_⟩
    · rw [get_date_list]
      exact List.mem_cons_self _ _
    · show ((0:ℤ), aggregate_row _) = ((0:ℤ), Fl.fin 3)
      norm_num [aggregate_row, site_spline_value, optFl, flSum, Fl.mul, Fl.add,
        Fl.div, Fl.isna, siteX, siteY]

/-- C3: in `get_site_spline`, a grid date strictly before the site's observed
minimum date or strictly after its observed maximum date carries a missing value,
and a grid date inside the observed range carries the fitted spline's value. -/
theorem C3_site_spline_masking (model : ℤ → ℚ) (min_date max_date s e d : ℤ)
    (v : Option ℚ) (hmem : (d, v) ∈ get_site_spline model min_date max_date s e) :
    ((d < min_date ∨ max_date < d) → v = none) ∧
    (min_date ≤ d → d ≤ max_date → v = some (model d)) := by
  rw [get_site_spline] at hmem
  obtain ⟨d', _, heq⟩ := List.mem_map.mp hmem
  have hd : d' = d := congrArg Prod.fst heq
  subst hd
  have hv : v = site_spline_value model min_date max_date d' :=
    (congrArg Prod.snd heq).symm
  subst hv
  constructor
  · rintro (h | h)
    · by_cases hm : max_date < d'
      · simp [site_spline_value, hm]
      · simp [site_spline_value, hm, h]
    · simp [site_spline_value, h]
  · intro h1 h2
    simp [site_spline_value, not_lt.mpr h1, not_lt.mpr h2]

theorem C3_site_spline_masking_witness :
    ((((3:ℤ) < 1 ∨ (2:ℤ) < 3) → (none : Option ℚ) = none) ∧
      ((1:ℤ) ≤ 3 → (3:ℤ) ≤ 2 → (none : Option ℚ) = some ((fun _ : ℤ => (7:ℚ)) 3))) ∧
    ((((1:ℤ) < 1 ∨ (2:ℤ) < 1) → (some (7:ℚ) : Option ℚ) = none) ∧
      ((1:ℤ) ≤ 1 → (1:ℤ) ≤ 2 → (some (7:ℚ) : Option ℚ) = some ((fun _ : ℤ => (7:ℚ)) 1))) := by
  constructor
  · exact C3_site_spline_masking (fun _ => (7:ℚ)) 1 2 0 2 3 none (by decide)
  · exact C3_site_spline_masking (fun _ => (7:ℚ)) 1 2 0 2 1 (some 7) (by decide)

/-! ## `SiteData.get_data_by_gene` (`sitedata.py`)

`self.measure_data` is the site's measurement table after the left-join with
`sample_data[["sampleID", "sampleDate"]]`, so its `sampleDate` column is
nullable.  `get_data_by_gene` selects the relevant columns, keeps the rows of
one gene, drops null values, converts units, floors sub-LOD values, and
optionally collapses replicates per sample. -/

/-- A row of `self.measure_data` (the columns `get_data_by_gene` selects). -/
structure MRow where
  sampleID : String
  type : String
  unit : String
  value : Option ℚ
  qualityFlag : String
  sampleDate : Option ℤ
deriving DecidableEq

/-- A measurement row after `dropna(subset=["value"])`: the value is known non-null. -/
structure GeneRow where
  sampleID : String
  unit : String
  value : ℚ
  qualityFlag : String
  sampleDate : Option ℤ
deriving DecidableEq

/-- An output row of `get_data_by_gene` / `get_normalized_data`
(`sampleID` index plus the `sampleDate` and `value` columns). -/
structure SampleValue where
  sampleID : String
  sampleDate : Option ℤ
  value : ℚ
deriving DecidableEq

/-- The gene selection and null-dropping prefix of `get_data_by_gene`. -/
def gene_rows (measure_data : List MRow) (gene : String) : List GeneRow :=
  (measure_data.filter (fun r => r.type == gene)).filterMap (fun r =>
    r.value.map (fun v =>
      { sampleID := r.sampleID, unit := r.unit, value := v,
        qualityFlag := r.qualityFlag, sampleDate := r.sampleDate }))

/-- Sorted insertion used to model the ascending group-key order of
`DataFrame.groupby` (pandas default `sort=True`). -/
def insertKey (x : String) : List String → List String
  | [] => [x]
  | y :: t => if x ≤ y then x :: y :: t else y :: insertKey x t

/-- Insertion sort over group keys. -/
def sortKeys (l : List String) : List String := l.foldr insertKey []

/-- `groupby(["sampleID"]).agg({"value": "mean", "sampleDate": "first"})`:
one output row per distinct sampleID (keys in ascending order), whose value is
the mean of the group's values and whose date is the group's first date. -/
def groupby_mean (md : List GeneRow) : List SampleValue :=
  (sortKeys (md.map (fun r => r.sampleID)).dedup).map (fun i =>
    let grp := md.filter (fun r => r.sampleID == i)
    { sampleID := i,
      sampleDate := (grp.map (fun r => r.sampleDate)).head?.getD none,
      value := (grp.map (fun r => r.value)).sum / (grp.length : ℚ) } )

/-- `SiteData.get_data_by_gene`: select the gene's non-null rows, convert units
into the requested target unit (only `"gcL"` and `"gcMl"` are supported, anything
else raises `ValueError`), floor converted values below the detection limit to
half the limit, and optionally aggregate replicates per sample. -/
def get_data_by_gene (measure_data : List MRow) (gene : String) (units : String)
    (mean : Bool) : Except String (List SampleValue) :=
  let md := gene_rows measure_data gene
  if units = "gcL" then
    let md := md.map (fun r => if r.unit = "gcMl" then { r with value := r.value * 1000 } else r)
    let md := md.map (fun r => if r.value < 300 then { r with value := 150 } else r)
    Except.ok (if mean then groupby_mean md
      else md.map (fun r =>
        { sampleID := r.sampleID, sampleDate := r.sampleDate, value := r.value }))
  else if units = "gcMl" then
    let md := md.map (fun r => if r.unit = "gcL" then { r with value := r.value / 1000 } else r)
    let md := md.map (fun r => if r.value < 3 / 10 then { r with value := 15 / 100 } else r)
    Except.ok (if mean then groupby_mean md
      else md.map (fun r =>
        { sampleID := r.sampleID, sampleDate := r.sampleDate, value := r.value }))
  else Except.error "Invalid units given for wastewater measure."

/-- C4 counterexample: a row recorded in `"gcL"` with value 1000, requested in
target units `"gcMl"`, comes out as 1 — the code divides by 1000 when converting
a gcL value to gcMl — not as the 1000 × 1000 the claimed conversion direction
(`×1000` for gcL→gcMl) would produce. -/
theorem C4_conversion_direction_counterexample :
    get_data_by_gene
        [{ sampleID := "s1", type := "N1", unit := "gcL", value := some 1000,
           qualityFlag := "", sampleDate := some 0 }] "N1" "gcMl" true
      = Except.ok [{ sampleID := "s1", sampleDate := some 0, value := 1 }] ∧
    (1 : ℚ) ≠ 1000 * 1000 := by
  constructor
  · rw [get_data_by_gene]
    simp [gene_rows, groupby_mean, sortKeys, insertKey]
    norm_num
  · norm_num

/-- C4 (amended): per non-null row of the requested gene, the value is first
converted into the target unit — `÷1000` for a gcL-recorded value requested in
gcMl, `×1000` for a gcMl-recorded value requested in gcL, rows already in the
target unit passing through unchanged — and the converted value is then floored:
strictly below 300 (gcL target) it becomes exactly 150, strictly below 0.3
(gcMl target) it becomes exactly 0.15, and at or above the threshold it is
unchanged by the flooring step. -/
theorem C4_unit_conversion_and_lod (measure_data : List MRow) (gene : String) :
    (∃ out, get_data_by_gene measure_data gene "gcL" false = Except.ok out ∧
      out.map (fun r => r.value) = (gene_rows measure_data gene).map (fun r =>
        let c := if r.unit = "gcMl" then r.value * 1000 else r.value
        if c < 300 then (150 : ℚ) else c)) ∧
    (∃ out, get_data_by_gene measure_data gene "gcMl" false = Except.ok out ∧
      out.map (fun r => r.value) = (gene_rows measure_data gene).map (fun r =>
        let c := if r.unit = "gcL" then r.value / 1000 else r.value
        if c < 3 / 10 then (15 / 100 : ℚ) else c)) := by
  constructor
  · refine ⟨(((gene_rows measure_data gene).map
        (fun r => if r.unit = "gcMl" then { r with value := r.value * 1000 } else r)).map
          (fun r => if r.value < 300 then { r with value := 150 } else r)).map
            (fun r =>
              { sampleID := r.sampleID, sampleDate := r.sampleDate,
                value := r.value }), ?_, ?_⟩
    · rw [get_data_by_gene]
      simp
    · simp only [List.map_map]
      refine List.map_congr_left ?_
      intro r _
      by_cases hu : r.unit = "gcMl"
      · by_cases hv : r.value * 1000 < 300 <;> simp [Function.comp_def, hu, hv]
      · by_cases hv : r.value < 300 <;> simp [Function.comp_def, hu, hv]
  · refine ⟨(((gene_rows measure_data gene).map
        (fun r => if r.unit = "gcL" then { r with value := r.value / 1000 } else r)).map
          (fun r => if r.value < 3 / 10 then { r with value := 15 / 100 } else r)).map
            (fun r =>
              { sampleID := r.sampleID, sampleDate := r.sampleDate,
                value := r.value }), ?_, ?_⟩
    · rw [get_data_by_gene]
      simp
    · simp only [List.map_map]
      refine List.map_congr_left ?_
      intro r _
      by_cases hu : r.unit = "gcL"
      · by_cases hv : r.value / 1000 < 3 / 10 <;> simp [Function.comp_def, hu, hv]
      · by_cases hv : r.value < 3 / 10 <;> simp [Function.comp_def, hu, hv]

/-- C9: `get_data_by_gene` raises the invalid-units `ValueError` exactly when the
target units argument is neither `"gcL"` nor `"gcMl"`, whatever unit labels the
rows carry. -/
theorem C9_invalid_units_iff (measure_data : List MRow) (gene units : String)
    (mean : Bool) :
    (∃ err, get_data_by_gene measure_data gene units mean = Except.error err) ↔
      units ≠ "gcL" ∧ units ≠ "gcMl" := by
  by_cases h1 : units = "gcL" <;> by_cases h2 : units = "gcMl" <;>
    simp [get_data_by_gene, h1, h2]

/-! ## `SiteData.get_normalized_data` (`sitedata.py`) -/

/-- The `data_1.merge(data_2, how="inner", on="sampleID")` step followed by
`value = value_x / value_y` and the renaming of `sampleDate_x` to `sampleDate`
(with `sampleDate_y` dropped): every left row is paired with every right row of
the same sampleID (in order), the ratio is taken, and the left date is kept. -/
def merge_inner (data_1 data_2 : List SampleValue) : List SampleValue :=
  data_1.flatMap (fun ra =>
    (data_2.filter (fun rb => rb.sampleID == ra.sampleID)).map (fun rb =>
      { sampleID := ra.sampleID, sampleDate := ra.sampleDate,
        value := ra.value / rb.value }))

/-- `SiteData.get_normalized_data`: the per-gene series of `gene_1` divided by the
per-gene series of `gene_2`, aligned per sample by the inner merge. -/
def get_normalized_data (measure_data : List MRow) (gene_1 gene_2 : String)
    (units : String) : Except String (List SampleValue) := do
  let data_1 ← get_data_by_gene measure_data gene_1 units true
  let data_2 ← get_data_by_gene measure_data gene_2 units true
  pure (merge_inner data_1 data_2)

/-- With duplicate-free keys on the right, a key-filter keeps at most one row:
exactly one when some right row has the key, none otherwise. -/
theorem filter_key_length (b : List SampleValue)
    (hb : (b.map (fun r => r.sampleID)).Nodup) (i : String) :
    (b.filter (fun rb => rb.sampleID == i)).length
      = if b.any (fun rb => rb.sampleID == i) then 1 else 0 := by
  induction b with
  | nil => rfl
  | cons rb t ih =>
    simp only [List.map_cons, List.nodup_cons] at hb
    by_cases h : rb.sampleID = i
    · have htail : t.filter (fun x => x.sampleID == i) = [] := by
        refine List.filter_eq_nil_iff.mpr ?_
        intro x hx
        have hne : x.sampleID ≠ i := by
          intro he
          exact hb.1 (h ▸ he ▸ List.mem_map_of_mem (fun r => r.sampleID) hx)
        simp [hne]
      simp [List.filter_cons, List.any_cons, h, htail]
    · have hbeq : (rb.sampleID == i) = false := by simpa using h
      simp [List.filter_cons, List.any_cons, hbeq, ih hb.2]

/-- The length of the inner merge with duplicate-free right keys: the number of
left rows whose key occurs on the right. -/
theorem merge_inner_length (data_1 data_2 : List SampleValue)
    (hb : (data_2.map (fun r => r.sampleID)).Nodup) :
    (merge_inner data_1 data_2).length
      = (data_1.filter (fun ra =>
          data_2.any (fun rb => rb.sampleID == ra.sampleID))).length := by
  induction data_1 with
  | nil => rfl
  | cons ra t ih =>
    rw [merge_inner] at ih ⊢
    rw [List.flatMap_cons, List.length_append, List.length_map,
      filter_key_length data_2 hb, List.filter_cons, ih]
    by_cases h : data_2.any (fun rb => rb.sampleID == ra.sampleID) <;>
      simp [h, Nat.add_comm]

/-- C8: `merge_inner` (the join inside `get_normalized_data`) is an inner join on
sampleID: the output sampleIDs are exactly those present in both inputs, the
output length is at most the length of either input (for the duplicate-free keys
the per-gene series carry), and each output row divides the left value by the
right value of its sampleID and keeps the left row's date. -/
theorem C8_ratio_inner_join (data_1 data_2 : List SampleValue)
    (h1 : (data_1.map (fun r => r.sampleID)).Nodup)
    (h2 : (data_2.map (fun r => r.sampleID)).Nodup) :
    (∀ i : String, (∃ r ∈ merge_inner data_1 data_2, r.sampleID = i) ↔
      ((∃ ra ∈ data_1, ra.sampleID = i) ∧ (∃ rb ∈ data_2, rb.sampleID = i))) ∧
    (merge_inner data_1 data_2).length ≤ min data_1.length data_2.length ∧
    (∀ r ∈ merge_inner data_1 data_2, ∃ ra ∈ data_1, ∃ rb ∈ data_2,
      ra.sampleID = r.sampleID ∧ rb.sampleID = r.sampleID ∧
      r.value = ra.value / rb.value ∧ r.sampleDate = ra.sampleDate) := by
  refine ⟨?_, ?_, ?_⟩
  · intro i
    constructor
    · rintro ⟨r, hr, rfl⟩
      obtain ⟨ra, hra, hr2⟩ := List.mem_flatMap.mp hr
      obtain ⟨rb, hrb, rfl⟩ := List.mem_map.mp hr2
      have hkey : rb.sampleID = ra.sampleID := by
        simpa using (List.mem_filter.mp hrb).2
      exact ⟨⟨ra, hra, rfl⟩, ⟨rb, List.mem_of_mem_filter hrb, hkey⟩⟩
    · rintro ⟨⟨ra, hra, rfl⟩, ⟨rb, hrb, hkey⟩⟩
      refine ⟨
        { sampleID := ra.sampleID, sampleDate := ra.sampleDate,
          value := ra.value / rb.value }, ?_, rfl⟩
      refine List.mem_flatMap.mpr ⟨ra, hra, ?_⟩
      refine List.mem_map.mpr ⟨rb, ?_, rfl⟩
      exact List.mem_filter.mpr ⟨hrb, by simp [hkey]⟩
  · rw [merge_inner_length data_1 data_2 h2]
    refine le_min ?_ ?_
    · exact List.length_filter_le _ _
    · have hsub : List.Sublist
          ((data_1.filter (fun ra =>
            data_2.any (fun rb => rb.sampleID == ra.sampleID))).map (fun r => r.sampleID))
          (data_1.map (fun r => r.sampleID)) :=
        (List.filter_sublist data_1).map _
      have hnd : ((data_1.filter (fun ra =>
          data_2.any (fun rb => rb.sampleID == ra.sampleID))).map
            (fun r => r.sampleID)).Nodup := h1.sublist hsub
      have hss : ((data_1.filter (fun ra =>
          data_2.any (fun rb => rb.sampleID == ra.sampleID))).map (fun r => r.sampleID))
          ⊆ data_2.map (fun r => r.sampleID) := by
        intro i hi
        obtain ⟨ra, hra, rfl⟩ := List.mem_map.mp hi
        obtain ⟨rb, hrb, hkey⟩ := List.any_eq_true.mp ((List.mem_filter.mp hra).2)
        exact List.mem_map.mpr ⟨rb, hrb, by simpa using hkey⟩
      calc (data_1.filter (fun ra =>
            data_2.any (fun rb => rb.sampleID == ra.sampleID))).length
          = ((data_1.filter (fun ra =>
              data_2.any (fun rb => rb.sampleID == ra.sampleID))).map
                (fun r => r.sampleID)).length := (List.length_map _ _).symm
        _ ≤ (data_2.map (fun r => r.sampleID)).length := (hnd.subperm hss).length_le
        _ = data_2.length := List.length_map _ _
  · intro r hr
    obtain ⟨ra, hra, hr2⟩ := List.mem_flatMap.mp hr
    obtain ⟨rb, hrb, rfl⟩ := List.mem_map.mp hr2
    have hkey : rb.sampleID = ra.sampleID := by
      simpa using (List.mem_filter.mp hrb).2
    exact ⟨ra, hra, rb, List.mem_of_mem_filter hrb, rfl, hkey, rfl, rfl⟩

theorem C8_ratio_inner_join_witness :
    (merge_inner
        [{ sampleID := "a", sampleDate := some 0, value := 6 },
         { sampleID := "c", sampleDate := some 1, value := 5 }]
        [{ sampleID := "a", sampleDate := some 9, value := 2 }]).length
      ≤ min 2 1 :=
  (C8_ratio_inner_join
    [{ sampleID := "a", sampleDate := some 0, value := 6 },
     { sampleID := "c", sampleDate := some 1, value := 5 }]
    [{ sampleID := "a", sampleDate := some 9, value := 2 }]
    (by decide) (by decide)).2.1

/-! ## `SiteData.get_standardized_data` (`sitedata.py`)

`measure_data["value"] = measure_data["value"]/np.std(measure_data["value"])`.
`np.std` is the population standard deviation (`ddof=0`): the square root of the
mean of squared deviations from the mean.  The standard deviation involves a real
square root, so this stage is embedded over `ℝ`. -/

/-- The mean of a series of values (the empty series yields `0/0 = 0`,
matching the convention `x / 0 = 0` used for the degenerate case). -/
noncomputable def series_mean (xs : List ℝ) : ℝ := xs.sum / xs.length

/-- `np.var(xs)` with the default `ddof=0`: mean of squared deviations. -/
noncomputable def np_var (xs : List ℝ) : ℝ :=
  ((xs.map (fun x => (x - series_mean xs) ^ 2)).sum) / xs.length

/-- `np.std(xs)` with the default `ddof=0`: population standard deviation. -/
noncomputable def np_std (xs : List ℝ) : ℝ := Real.sqrt (np_var xs)

/-- `SiteData.get_standardized_data`, applied to the normalized series: every
value is divided by the population standard deviation of the whole value column;
the dates are untouched. -/
noncomputable def get_standardized_data (series : List (ℤ × ℝ)) : List (ℤ × ℝ) :=
  series.map (fun p => (p.1, p.2 / np_std (series.map Prod.snd)))

theorem sum_map_div (xs : List ℝ) (c : ℝ) :
    (xs.map (fun x => x / c)).sum = xs.sum / c := by
  induction xs with
  | nil => simp
  | cons x t ih => simp [ih, add_div]

theorem mean_map_div (xs : List ℝ) (c : ℝ) :
    series_mean (xs.map (fun x => x / c)) = series_mean xs / c := by
  rw [series_mean, series_mean, sum_map_div, List.length_map, div_right_comm]

theorem var_map_div (xs : List ℝ) (c : ℝ) :
    np_var (xs.map (fun x => x / c)) = np_var xs / c ^ 2 := by
  rw [np_var, np_var, List.map_map, List.length_map, mean_map_div]
  have hmap : (xs.map ((fun y => (y - series_mean xs / c) ^ 2) ∘ fun x => x / c))
      = (xs.map (fun x => (x - series_mean xs) ^ 2)).map (fun y => y / c ^ 2) := by
    rw [List.map_map]
    refine List.map_congr_left ?_
    intro x _
    simp only [Function.comp_apply]
    rw [div_sub_div_same, div_pow]
  rw [hmap, sum_map_div, div_right_comm]

/-- C7: the standardization stage divides every value by the population standard
deviation (ddof = 0) of the whole series, so — whenever that deviation is
nonzero — the population standard deviation of its output is exactly 1, while the
dates survive unchanged. -/
theorem C7_standardize_population_std (series : List (ℤ × ℝ))
    (hvar : 0 < np_var (series.map Prod.snd)) :
    ((get_standardized_data series).map Prod.fst = series.map Prod.fst) ∧
    np_std ((get_standardized_data series).map Prod.snd) = 1 := by
  constructor
  · simp [get_standardized_data, List.map_map, Function.comp_def]
  · have hvals : (get_standardized_data series).map Prod.snd
        = (series.map Prod.snd).map (fun x => x / np_std (series.map Prod.snd)) := by
      simp [get_standardized_data, List.map_map, Function.comp_def]
    rw [hvals, np_std, var_map_div, np_std, Real.sq_sqrt hvar.le,
      div_self hvar.ne']
    exact Real.sqrt_one

theorem C7_standardize_population_std_witness :
    0 < np_var ([((0:ℤ), (0:ℝ)), (1, 2)].map Prod.snd) ∧
    ((get_standardized_data [((0:ℤ), (0:ℝ)), (1, 2)]).map Prod.fst
        = [((0:ℤ), (0:ℝ)), (1, 2)].map Prod.fst) ∧
    np_std ((get_standardized_data [((0:ℤ), (0:ℝ)), (1, 2)]).map Prod.snd) = 1 :=
  have h : 0 < np_var ([((0:ℤ), (0:ℝ)), (1, 2)].map Prod.snd) := by
    norm_num [np_var, series_mean]
  ⟨h, C7_standardize_population_std [((0:ℤ), (0:ℝ)), (1, 2)] h⟩

/-! ## `SiteData.get_log_standardized_data` (`sitedata.py`)

`measure_data["value"] = np.log(measure_data["value"])`.  NumPy's `np.log` does
not raise on non-positive input: it emits a RuntimeWarning and yields NaN for a
negative argument and `-inf` for zero.  For positive `x` it yields `ln x`; no
code in scope consumes that numeric value, so it is represented symbolically by
the argument of `lnPos`. -/

/-- The result of `np.log` on one float: NaN (negative input), `-inf` (zero
input), or the natural logarithm of a positive input, kept symbolically as
`lnPos x` (standing for `ln x`). -/
inductive LogResult where
  | nan : LogResult
  | ninf : LogResult
  | lnPos : ℚ → LogResult
deriving DecidableEq

/-- Elementwise behaviour of `np.log`. -/
def np_log (x : ℚ) : LogResult :=
  if x < 0 then LogResult.nan else if x = 0 then LogResult.ninf else LogResult.lnPos x

/-- The log-transform of `get_log_standardized_data`, applied to the standardized
series.  Nothing in this stage raises: the only exception in the whole
`get_data_by_gene → … → get_log_standardized_data` chain is the invalid-units
`ValueError` upstream, so the stage always returns `Except.ok`. -/
def log_transform_stage (series : List (ℤ × ℚ)) :
    Except String (List (ℤ × LogResult)) :=
  Except.ok (series.map (fun p => (p.1, np_log p.2)))

/-- C6 counterexample: on a standardized series containing a value `≤ 0` the
log-transform stage returns a result — NaN for `-1`, `-inf` for `0` — rather
than failing with any error. -/
theorem C6_log_no_failure_counterexample :
    log_transform_stage [(0, -1)] = Except.ok [(0, LogResult.nan)] ∧
    log_transform_stage [(0, 0)] = Except.ok [(0, LogResult.ninf)] := by
  constructor <;> norm_num [log_transform_stage, np_log]

/-- C6 (amended): the log-transform stage takes the natural log of every value of
the standardized series and never fails: a negative value yields NaN, a zero
value yields `-inf` (each with only a RuntimeWarning in NumPy), and a positive
value yields its natural logarithm. -/
theorem C6_log_transform_total (series : List (ℤ × ℚ)) :
    log_transform_stage series
      = Except.ok (series.map (fun p => (p.1, np_log p.2))) ∧
    ∀ q : ℚ, (q < 0 → np_log q = LogResult.nan) ∧
      (q = 0 → np_log q = LogResult.ninf) ∧
      (0 < q → np_log q = LogResult.lnPos q) := by
  refine ⟨rfl, ?_⟩
  intro q
  refine ⟨fun h => ?_, fun h => ?_, fun h => ?_⟩
  · rw [np_log, if_pos h]
  · rw [np_log, if_neg (by simp [h]), if_pos h]
  · rw [np_log, if_neg (not_lt.mpr h.le), if_neg h.ne.symm]

theorem C6_log_transform_total_witness :
    np_log (-1) = LogResult.nan ∧ np_log 0 = LogResult.ninf ∧
    np_log 2 = LogResult.lnPos 2 :=
  ⟨((C6_log_transform_total []).2 (-1)).1 (by norm_num),
   ((C6_log_transform_total []).2 0).2.1 rfl,
   ((C6_log_transform_total []).2 2).2.2 (by norm_num)⟩

/-! ## `SiteData.get_spline_model` (`sitedata.py`)

`knots = np.arange(10, duration, 10)` with
`duration = delta_days(end_date, start_date)`, where `start_date`/`end_date` are
the min/max of the series dates; the spline is then fitted by
`scipy.interpolate.LSQUnivariateSpline` on the day offsets.  (The source also
sorts the rows by date before fitting; the fit model below depends only on the
set of offsets, so the sort is not re-modelled.) -/

/-- One step of `np.arange(10, stop, 10)`: emit `cur` and advance by the stride
while `cur < stop`.  `fuel` is an iteration bound large enough that the guard
`cur < stop` is what stops the recursion. -/
def arangeFrom (stop : ℤ) : ℕ → ℤ → List ℤ
  | 0, _ => []
  | fuel + 1, cur => if cur < stop then cur :: arangeFrom stop fuel (cur + 10) else []

/-- `np.arange(10, stop, 10)`: the multiples `10, 20, 30, …` strictly below
`stop`. -/
def np_arange_10 (stop : ℤ) : List ℤ :=
  arangeFrom stop ((stop - 10).toNat / 10 + 1) 10

/-- Modelled from the spec: the least-squares fit itself is performed by
`scipy.interpolate.LSQUnivariateSpline`, which is not part of this repository.
Per the spec's failure modes (§4.4): fewer than 2 distinct offsets is
`InsufficientData`; an interior knot outside the open data range is
`FitFailure`; otherwise the fit succeeds, an empty interior-knot sequence
degrading to an unconstrained least-squares fit (no special-cased error). -/
def lsq_fit (offsets : List ℤ) (knots : List ℤ) : Except String Unit :=
  if offsets.dedup.length < 2 then Except.error "InsufficientData"
  else if knots.any (fun t =>
      decide (t ≤ offsets.min?.getD 0 ∨ offsets.max?.getD 0 ≤ t)) then
    Except.error "FitFailure"
  else Except.ok ()

/-- `SiteData.get_spline_model`: compute the date span, place the interior knots
at stride 10, convert the dates to day offsets from the start date, and fit.
On success the interior-knot list is returned as the observable of the fitted
(opaque) spline. -/
def get_spline_model (series : List (ℤ × ℚ)) : Except String (List ℤ) :=
  let start_date := (series.map Prod.fst).min?.getD 0
  let end_date := (series.map Prod.fst).max?.getD 0
  let duration := delta_days end_date start_date
  let knots := np_arange_10 duration
  let offsets := (series.map Prod.fst).map (fun d => delta_days d start_date)
  match lsq_fit offsets knots with
  | Except.error err => Except.error err
  | Except.ok _ => Except.ok knots

/-- An injective map preserves the number of distinct elements of a list. -/
theorem dedup_length_map_injective (f : ℤ → ℤ) (hf : Function.Injective f) :
    ∀ l : List ℤ, ((l.map f).dedup).length = l.dedup.length := by
  intro l
  induction l with
  | nil => rfl
  | cons a t ih =>
    by_cases h : a ∈ t
    · rw [List.map_cons, List.dedup_cons_of_mem ((List.mem_map_of_injective hf).mpr h),
        List.dedup_cons_of_mem h, ih]
    · rw [List.map_cons,
        List.dedup_cons_of_not_mem (fun hc => h ((List.mem_map_of_injective hf).mp hc)),
        List.dedup_cons_of_not_mem h, List.length_cons, List.length_cons, ih]

theorem mem_arangeFrom (stop : ℤ) :
    ∀ (fuel : ℕ) (cur t : ℤ), stop ≤ cur + 10 * fuel →
      (t ∈ arangeFrom stop fuel cur ↔ 10 ∣ (t - cur) ∧ cur ≤ t ∧ t < stop) := by
  intro fuel
  induction fuel with
  | zero =>
    intro cur t h
    simp only [arangeFrom, List.not_mem_nil, false_iff]
    omega
  | succ m ih =>
    intro cur t h
    by_cases hc : cur < stop
    · rw [arangeFrom, if_pos hc, List.mem_cons, ih (cur + 10) t (by push_cast at h ⊢; omega)]
      omega
    · rw [arangeFrom, if_neg hc]
      simp only [List.not_mem_nil, false_iff]
      omega

/-- Membership in the knot schedule: exactly the positive multiples of 10
strictly below `stop`. -/
theorem mem_np_arange_10 (stop t : ℤ) :
    t ∈ np_arange_10 stop ↔ 10 ∣ t ∧ 10 ≤ t ∧ t < stop := by
  rw [np_arange_10, mem_arangeFrom stop _ 10 t (by push_cast; omega)]
  omega

theorem np_arange_10_eq_nil (stop : ℤ) (h : stop ≤ 10) : np_arange_10 stop = [] := by
  refine List.eq_nil_iff_forall_not_mem.mpr ?_
  intro t ht
  rw [mem_np_arange_10] at ht
  omega

/-- C5: the interior knots are exactly `10, 20, 30, …` strictly below the
duration, the schedule is empty when the duration is at most 10 days, and a
series with exactly 2 distinct dates spanning at most 10 days fits without
error, with zero interior knots. -/
theorem C5_knot_schedule (series : List (ℤ × ℚ))
    (hdist : ((series.map Prod.fst)).dedup.length = 2)
    (hdur : delta_days ((series.map Prod.fst).max?.getD 0)
        ((series.map Prod.fst).min?.getD 0) ≤ 10) :
    get_spline_model series = Except.ok [] ∧
    (∀ dur : ℤ, (∀ t : ℤ, t ∈ np_arange_10 dur ↔ 10 ∣ t ∧ 10 ≤ t ∧ t < dur) ∧
      (dur ≤ 10 → np_arange_10 dur = [])) := by
  constructor
  · have hknots : np_arange_10 (delta_days ((series.map Prod.fst).max?.getD 0)
        ((series.map Prod.fst).min?.getD 0)) = [] := np_arange_10_eq_nil _ hdur
    have hoff : (((series.map Prod.fst).map (fun d =>
        delta_days d ((series.map Prod.fst).min?.getD 0))).dedup).length = 2 := by
      rw [dedup_length_map_injective _
        (fun a b hab => by simpa [delta_days, sub_left_inj] using hab), hdist]
    rw [get_spline_model]
    simp only [hknots, lsq_fit, hoff, List.any_nil, Bool.false_eq_true, if_false,
      if_neg (by omega : ¬(2 < 2))]
  · intro dur
    exact ⟨fun t => mem_np_arange_10 dur t, np_arange_10_eq_nil dur⟩

theorem C5_knot_schedule_witness :
    get_spline_model [((0:ℤ), (5:ℚ)), (3, 7)] = Except.ok [] :=
  (C5_knot_schedule [((0:ℤ), (5:ℚ)), (3, 7)] (by decide) (by decide)).1

/-! ## `SiteData.__init__` (`sitedata.py`)

Construction reads the site's metadata row (`.values[0]` on the selection by
`siteID`, which raises `IndexError` when the selection is empty), then eagerly
derives the site's sample table (with the `sampleTime`/`sampleDate` columns) and
its measurement table (joined with the sample dates).  Timestamps are modelled
as rational day numbers; `.dt.date` is the floor. -/

/-- A row of the ODM `Site` table. -/
structure SiteRow where
  siteID : String
  name : String
  description : String
  type : String
  healthRegion : String
  publicHealthDepartment : String
  geoLat : ℚ
  geoLong : ℚ
deriving DecidableEq

/-- A row of the ODM `Sample` table. -/
structure SampleRow where
  sampleID : String
  siteID : String
  dateTime : ℚ
  dateTimeEnd : Option ℚ
deriving DecidableEq

/-- A row of the ODM `WWMeasure` table. -/
structure WWMeasureRow where
  sampleID : String
  type : String
  unit : String
  value : Option ℚ
  qualityFlag : String
deriving DecidableEq

/-- The loaded ODM dataset, as consumed by `SiteData`. -/
structure ODMData where
  site : List SiteRow
  sample : List SampleRow
  ww_measure : List WWMeasureRow

/-- A sample row with the derived `sampleTime` and `sampleDate` columns. -/
structure SampleWithDate where
  row : SampleRow
  sampleTime : ℚ
  sampleDate : ℤ
deriving DecidableEq

/-- A measurement row joined (left) with the sample's `sampleDate`. -/
structure MeasureWithDate where
  row : WWMeasureRow
  sampleDate : Option ℤ
deriving DecidableEq

/-- The state a successfully constructed `SiteData` object holds. -/
structure SiteDataObj where
  name : String
  description : String
  type : String
  health_region : String
  health_department : String
  latitude : ℚ
  longitude : ℚ
  sample_data : List SampleWithDate
  measure_data : List MeasureWithDate
  genes : List String
deriving DecidableEq

/-- The site's sample table: rows with this `siteID`, with
`sampleTime = dateTimeEnd.fillna(dateTime)` and `sampleDate` its date part. -/
def derive_sample_data (data : ODMData) (site_id : String) : List SampleWithDate :=
  (data.sample.filter (fun r => r.siteID == site_id)).map (fun r =>
    let sampleTime := r.dateTimeEnd.getD r.dateTime
    { row := r, sampleTime := sampleTime, sampleDate := ⌊sampleTime⌋ })

/-- The site's measurement table: measurement rows whose `sampleID` occurs in the
site's sample table (`isin`), left-merged with `sampleDate` on `sampleID`. -/
def derive_measure_data (data : ODMData) (site_id : String) : List MeasureWithDate :=
  let sd := derive_sample_data data site_id
  let filtered := data.ww_measure.filter (fun m =>
    sd.any (fun s2 => s2.row.sampleID == m.sampleID))
  filtered.flatMap (fun m =>
    match sd.filter (fun s2 => s2.row.sampleID == m.sampleID) with
    | [] => [{ row := m, sampleDate := none }]
    | l => l.map (fun s2 => { row := m, sampleDate := some s2.sampleDate }))

/-- `SiteData.__init__`: select the site's metadata row (the first match;
`.values[0]` on an empty selection raises `IndexError`), then eagerly derive the
sample and measurement join tables and the gene list. -/
def SiteData_init (data : ODMData) (site_id : String) : Except String SiteDataObj :=
  let site_data := data.site
  let row := site_data.filter (fun r => r.siteID == site_id)
  match row.head? with
  | none => Except.error "IndexError"
  | some r =>
      Except.ok
        { name := r.name, description := r.description, type := r.type,
          health_region := r.healthRegion,
          health_department := r.publicHealthDepartment,
          latitude := r.geoLat, longitude := r.geoLong,
          sample_data := derive_sample_data data site_id,
          measure_data := derive_measure_data data site_id,
          genes := ((derive_measure_data data site_id).map (fun m => m.row.type)).dedup }

/-- C10: constructing `SiteData` fails (with the `IndexError` from indexing the
first matching site row of an empty selection) exactly when the `site_id`
appears nowhere in the Site table; when it does appear, construction succeeds
and the object holds the eagerly derived sample and measurement join tables. -/
theorem C10_init_absent_site (data : ODMData) (site_id : String) :
    ((∃ err, SiteData_init data site_id = Except.error err) ↔
      ∀ r ∈ data.site, r.siteID ≠ site_id) ∧
    ((∃ r ∈ data.site, r.siteID = site_id) →
      ∃ sd, SiteData_init data site_id = Except.ok sd ∧
        sd.sample_data = derive_sample_data data site_id ∧
        sd.measure_data = derive_measure_data data site_id) := by
  constructor
  · constructor
    · rintro ⟨err, herr⟩ r hr hid
      simp only [SiteData_init] at herr
      cases hh : (data.site.filter (fun r2 => r2.siteID == site_id)).head? with
      | none =>
        have hmem : r ∈ data.site.filter (fun r2 => r2.siteID == site_id) :=
          List.mem_filter.mpr ⟨hr, by simp [hid]⟩
        rw [List.head?_eq_none_iff] at hh
        rw [hh] at hmem
        exact List.not_mem_nil r hmem
      | some r2 =>
        rw [hh] at herr
        exact Except.noConfusion herr
    · intro hall
      refine ⟨"IndexError", ?_⟩
      simp only [SiteData_init]
      have hf : data.site.filter (fun r => r.siteID == site_id) = [] :=
        List.filter_eq_nil_iff.mpr (fun r hr => by simp [hall r hr])
      rw [hf]
      rfl
  · rintro ⟨r, hr, hid⟩
    simp only [SiteData_init]
    cases hh : (data.site.filter (fun r2 => r2.siteID == site_id)).head? with
    | none =>
      have hmem : r ∈ data.site.filter (fun r2 => r2.siteID == site_id) :=
        List.mem_filter.mpr ⟨hr, by simp [hid]⟩
      rw [List.head?_eq_none_iff] at hh
      rw [hh] at hmem
      exact absurd hmem (List.not_mem_nil r)
    | some r0 =>
      exact ⟨_, rfl, rfl, rfl⟩

/-- Witness site row for the construction theorem. -/
def wSite : SiteRow :=
  { siteID := "st1", name := "Site One", description := "d", type := "t",
    healthRegion := "hr", publicHealthDepartment := "phd", geoLat := 0,
    geoLong := 0 }

/-- Witness dataset: one site, no samples, no measurements. -/
def wData : ODMData := { site := [wSite], sample := [], ww_measure := [] }

theorem C10_init_absent_site_witness :
    ∃ sd, SiteData_init wData "st1" = Except.ok sd ∧
      sd.sample_data = derive_sample_data wData "st1" ∧
      sd.measure_data = derive_measure_data wData "st1" :=
  (C10_init_absent_site wData "st1").2 ⟨wSite, List.mem_cons_self wSite [], rfl⟩

end PyODM
